import Mathlib

/-!
# Verification of the Mazungumzo chat widget

Shallow embedding of the browser-side chat widget consisting of
`MessageFormatter` (message formatting, crisis keyword detection,
translations), `APIService` (HTTP calls to the backend) and
`ChatInterface` (the chat state machine wired to both).

JS strings are modelled as `List Char`; stateful DOM/network behaviour is
modelled by explicit state passing, with the outcome of each `fetch` call
supplied as an explicit oracle argument.
-/

/-- A Lean string literal viewed in the `List Char` model of a JS string. -/
def str (s : String) : List Char := s.toList

/-- The JS whitespace class `\s` (which is also the character set removed by
`String.prototype.trim`): space, tab, line feed, vertical tab, form feed,
carriage return, and the Unicode space characters. -/
def isJsWs (c : Char) : Bool :=
  c == ' ' || c == '\t' || c == '\n' || c == '\r' ||
  c.toNat == 11 || c.toNat == 12 ||
  c.toNat == 0xa0 || c.toNat == 0x1680 ||
  (decide (0x2000 ≤ c.toNat) && decide (c.toNat ≤ 0x200a)) ||
  c.toNat == 0x2028 || c.toNat == 0x2029 || c.toNat == 0x202f ||
  c.toNat == 0x205f || c.toNat == 0x3000 || c.toNat == 0xfeff

/-- `message.toLowerCase()`. `Char.toLower` performs the ASCII lowering
`A`-`Z` to `a`-`z`, which covers every character the fixed keyword list and
the claims exercise. -/
def jsToLowerCase (s : List Char) : List Char := s.map Char.toLower

/-- The fixed crisis keyword list of `MessageFormatter.detectCrisisIndicators`
(src/unnamed/part_000, lines 124-132): first the 8 English entries, then the
7 Swahili entries; the source lists `emergency` in both groups. -/
def crisisKeywords : List (List Char) :=
  [str "suicide", str "kill myself", str "end it all", str "don't want to live",
   str "cutting", str "self harm", str "overdose", str "emergency",
   str "kujiua", str "kufa", str "maumivu", str "tatizo kubwa",
   str "msaada wa haraka", str "emergency", str "hospitali"]

/-- `MessageFormatter.detectCrisisIndicators` (src/unnamed/part_000,
lines 123-136): lowercase the message and test whether some keyword of the
fixed list occurs in it (`messageLower.includes(keyword)`: substring test,
embedded as the list-infix relation). -/
def detectCrisisIndicators (message : List Char) : Bool :=
  crisisKeywords.any fun kw => decide (kw <:+: jsToLowerCase message)

/-- C1: `detectCrisisIndicators(message)` is true iff at least one entry of
the fixed 15-entry keyword list (with `emergency` listed twice) is a
substring of `message.toLowerCase()`; the result depends only on the
lowercased message, so it is invariant under changing letter case. -/
theorem detectCrisisIndicators_keyword_scan :
    (∀ m : List Char, detectCrisisIndicators m = true ↔
        ∃ kw ∈ crisisKeywords, ∃ a b : List Char, a ++ kw ++ b = jsToLowerCase m)
    ∧ crisisKeywords.length = 15
    ∧ crisisKeywords.count (str "emergency") = 2
    ∧ (∀ m₁ m₂ : List Char, jsToLowerCase m₁ = jsToLowerCase m₂ →
        detectCrisisIndicators m₁ = detectCrisisIndicators m₂) := by
  refine ⟨?_, by decide, by decide, ?_⟩
  · intro m
    simp only [detectCrisisIndicators, List.any_eq_true, decide_eq_true_eq]
    rfl
  · intro m₁ m₂ h
    unfold detectCrisisIndicators
    rw [h]

/-- Instantiation of `detectCrisisIndicators_keyword_scan`: case invariance at
a concrete message pair, discharging the hypothesis by evaluation. -/
theorem detectCrisisIndicators_keyword_scan_witness :
    detectCrisisIndicators (str "I Feel Like SUICIDE") =
      detectCrisisIndicators (str "i feel like suicide") :=
  detectCrisisIndicators_keyword_scan.2.2.2
    (str "I Feel Like SUICIDE") (str "i feel like suicide") (by decide)

/-- The `en` translation table of `MessageFormatter` (src/unnamed/part_000,
lines 9-17). -/
def translationsEn (key : List Char) : Option (List Char) :=
  if key = str "typing" then some (str "Mazungumzo is typing...")
  else if key = str "sendButton" then some (str "Send")
  else if key = str "placeholder" then some (str "Type your message...")
  else if key = str "crisisTitle" then some (str "⚠️ Crisis Support Detected")
  else if key = str "crisisMessage" then
    some (str "I see you might need immediate help. Please contact:")
  else if key = str "errorMessage" then
    some (str "Sorry, there was a technical issue. Please try again.")
  else if key = str "welcomeMessage" then
    some (str "Hello! I'm Mazungumzo, your mental health companion. I can help you in English or Swahili. How are you feeling today?")
  else none

/-- The `sw` translation table of `MessageFormatter` (src/unnamed/part_000,
lines 18-26). -/
def translationsSw (key : List Char) : Option (List Char) :=
  if key = str "typing" then some (str "Mazungumzo anaandika...")
  else if key = str "sendButton" then some (str "Tuma")
  else if key = str "placeholder" then some (str "Andika ujumbe wako...")
  else if key = str "crisisTitle" then some (str "⚠️ Msaada wa Haraka Umegundulika")
  else if key = str "crisisMessage" then
    some (str "Naona unaweza kuhitaji msaada wa haraka. Tafadhali wasiliana na:")
  else if key = str "errorMessage" then
    some (str "Pole sana, kuna tatizo la kiufundi. Tafadhali jaribu tena.")
  else if key = str "welcomeMessage" then
    some (str "Hujambo! Mimi ni Mazungumzo, rafiki yako wa kusaidia katika mambo ya afya ya akili. Naweza kukusaidia kwa lugha ya Kiingereza au Kiswahili. Unahisije leo?")
  else none

/-- `this.translations[language]?.[key]`: the optional-chaining lookup.
Languages other than `en` and `sw` yield `undefined` (`none`). -/
def translationsLookup (language key : List Char) : Option (List Char) :=
  if language = str "en" then translationsEn key
  else if language = str "sw" then translationsSw key
  else none

/-- JS `a || b` for a possibly-undefined string `a`: `b` when `a` is
`undefined` or the empty string (falsy), `a` otherwise. -/
def jsOrElse (a : Option (List Char)) (b : List Char) : List Char :=
  match a with
  | some v => if v = [] then b else v
  | none => b

/-- `MessageFormatter.translate` (src/unnamed/part_000, lines 73-75):
`this.translations[language]?.[key] || this.translations.en[key] || key`. -/
def MessageFormatter.translate (key language : List Char) : List Char :=
  jsOrElse (translationsLookup language key) (jsOrElse (translationsEn key) key)

/-- Every value stored in either translation table is a non-empty string
(so the falsy `||` fallbacks never skip an existing entry). -/
theorem translations_values_ne_nil (language key v : List Char)
    (h : translationsLookup language key = some v) : v ≠ [] := by
  unfold translationsLookup translationsEn translationsSw at h
  split_ifs at h <;>
    first
      | exact Option.noConfusion h
      | (rw [Option.some.injEq] at h; subst h; decide)

/-- C10: `translate(key, language)` returns the entry of the selected
language table when it exists, otherwise the English entry when it exists,
otherwise the key itself. -/
theorem translate_fallback_spec :
    (∀ key language v : List Char,
        translationsLookup language key = some v → MessageFormatter.translate key language = v)
    ∧ (∀ key language v : List Char,
        translationsLookup language key = none → translationsEn key = some v →
          MessageFormatter.translate key language = v)
    ∧ (∀ key language : List Char,
        translationsLookup language key = none → translationsEn key = none →
          MessageFormatter.translate key language = key) := by
  refine ⟨?_, ?_, ?_⟩
  · intro key language v h
    have hne := translations_values_ne_nil language key v h
    simp [MessageFormatter.translate, jsOrElse, h, hne]
  · intro key language v h he
    have hne := translations_values_ne_nil (str "en") key v (by simpa [translationsLookup] using he)
    simp [MessageFormatter.translate, jsOrElse, h, he, hne]
  · intro key language h he
    simp [MessageFormatter.translate, jsOrElse, h, he]

/-- Instantiation of `translate_fallback_spec`: all three branches at
concrete keys and languages, discharging each hypothesis by evaluation. -/
theorem translate_fallback_spec_witness :
    MessageFormatter.translate (str "sendButton") (str "sw") = str "Tuma"
    ∧ MessageFormatter.translate (str "sendButton") (str "fr") = str "Send"
    ∧ MessageFormatter.translate (str "unknownKey") (str "fr") = str "unknownKey" :=
  ⟨translate_fallback_spec.1 (str "sendButton") (str "sw") (str "Tuma") (by decide),
   translate_fallback_spec.2.1 (str "sendButton") (str "fr") (str "Send") (by decide) (by decide),
   translate_fallback_spec.2.2 (str "unknownKey") (str "fr") (by decide) (by decide)⟩

/-- `input.trim()`: remove leading and trailing JS whitespace. -/
def jsTrim (s : List Char) : List Char :=
  List.rdropWhile isJsWs (s.dropWhile isJsWs)

/-- Worker for `replace(/\s+/g, ' ')`. The flag records whether the scan is
currently inside a whitespace run whose single replacement `' '` has already
been emitted. -/
def collapseWsAux : Bool → List Char → List Char
  | _, [] => []
  | inRun, c :: rest =>
    if isJsWs c then
      if inRun then collapseWsAux true rest
      else ' ' :: collapseWsAux true rest
    else c :: collapseWsAux false rest

/-- `formatted.replace(/\s+/g, ' ')`: every maximal run of whitespace becomes
a single space. -/
def collapseWs (s : List Char) : List Char := collapseWsAux false s

/-- `MessageFormatter.formatUserInput` (src/unnamed/part_000, lines 178-191):
empty input is returned as is (`!input`), otherwise trim, collapse whitespace
runs to single spaces, and truncate to 1000 characters (`substr(0, 1000)`). -/
def formatUserInput (input : List Char) : List Char :=
  if input = [] then []
  else (collapseWs (jsTrim input)).take 1000

example : formatUserInput (str "  hello   world  ") = str "hello world" := by decide
example : formatUserInput (str " \t\n ") = str "" := by decide

/-- The first element surviving `dropWhile` fails the predicate. -/
theorem dropWhile_head_false {α : Type} (p : α → Bool) :
    ∀ (s : List α) (c : α) (t : List α), s.dropWhile p = c :: t → p c = false := by
  intro s
  induction s with
  | nil => intro c t h; exact absurd h (by simp)
  | cons a r ih =>
    intro c t h
    cases hpa : p a
    · simp [List.dropWhile_cons, hpa] at h
      obtain ⟨rfl, -⟩ := h
      exact hpa
    · simp [List.dropWhile_cons, hpa] at h
      exact ih c t h

/-- If every head candidate fails the predicate, `dropWhile` is the identity. -/
theorem dropWhile_eq_self_of_head {α : Type} (p : α → Bool) (l : List α)
    (h : ∀ c t, l = c :: t → p c = false) : l.dropWhile p = l := by
  cases l with
  | nil => rfl
  | cons a t => simp [List.dropWhile_cons, h a t rfl]

/-- If the last element fails the predicate, `rdropWhile` is the identity. -/
theorem rdropWhile_eq_self_of_last {α : Type} (p : α → Bool) (l : List α)
    (h : ∀ c, l.getLast? = some c → p c = false) : List.rdropWhile p l = l := by
  unfold List.rdropWhile
  rw [List.reverse_eq_iff]
  apply dropWhile_eq_self_of_head
  intro c t hc
  apply h
  rw [← List.head?_reverse, hc]
  rfl

/-- A non-empty list has a last element. -/
theorem getLast?_some_of_ne_nil {α : Type} (l : List α) (h : l ≠ []) :
    ∃ c, l.getLast? = some c := by
  cases hl : l.reverse with
  | nil => exact absurd (List.reverse_eq_nil_iff.mp hl) h
  | cons a t => exact ⟨a, by rw [← List.head?_reverse, hl]; rfl⟩

/-- Prepending preserves a known last element. -/
theorem getLast?_cons_eq {α : Type} (a : α) (l : List α) (c : α)
    (h : l.getLast? = some c) : (a :: l).getLast? = some c := by
  cases l with
  | nil => simp at h
  | cons b t => rw [List.getLast?_cons_cons]; exact h

/-- The first character of `jsTrim s`, when present, is not whitespace. -/
theorem jsTrim_head_false (s : List Char) (c : Char) (t : List Char)
    (h : jsTrim s = c :: t) : isJsWs c = false := by
  unfold jsTrim List.rdropWhile at h
  obtain ⟨u, hu⟩ := List.dropWhile_suffix (l := (s.dropWhile isJsWs).reverse) isJsWs
  have h2 := congrArg List.reverse hu
  simp only [List.reverse_append, List.reverse_reverse] at h2
  rw [h] at h2
  have hA : s.dropWhile isJsWs = c :: (t ++ u.reverse) := by
    rw [← h2]
    simp
  exact dropWhile_head_false isJsWs s c _ hA

/-- The last character of `jsTrim s`, when present, is not whitespace. -/
theorem jsTrim_last_false (s : List Char) (c : Char)
    (h : (jsTrim s).getLast? = some c) : isJsWs c = false := by
  unfold jsTrim List.rdropWhile at h
  rw [List.getLast?_reverse] at h
  cases hD : (s.dropWhile isJsWs).reverse.dropWhile isJsWs with
  | nil => rw [hD] at h; simp at h
  | cons d r =>
    rw [hD] at h
    simp only [List.head?_cons, Option.some.injEq] at h
    subst h
    exact dropWhile_head_false isJsWs _ _ _ hD

/-- `jsTrim` never lengthens a string. -/
theorem jsTrim_length_le (s : List Char) : (jsTrim s).length ≤ s.length := by
  unfold jsTrim List.rdropWhile
  have h1 := (List.dropWhile_suffix (l := (s.dropWhile isJsWs).reverse) isJsWs).sublist.length_le
  have h2 := (List.dropWhile_suffix (l := s) isJsWs).sublist.length_le
  simp only [List.length_reverse] at h1 ⊢
  omega

/-- `collapseWsAux` never lengthens a string. -/
theorem collapseWsAux_length : ∀ (b : Bool) (s : List Char),
    (collapseWsAux b s).length ≤ s.length := by
  intro b s
  induction s generalizing b with
  | nil => simp [collapseWsAux]
  | cons c rest ih =>
    cases hc : isJsWs c
    · simp only [collapseWsAux, hc, Bool.false_eq_true, if_false, List.length_cons]
      exact Nat.succ_le_succ (ih false)
    · cases b
      · simp only [collapseWsAux, hc, if_true, Bool.false_eq_true, if_false, List.length_cons]
        exact Nat.succ_le_succ (ih true)
      · simp only [collapseWsAux, hc, if_true, List.length_cons]
        exact Nat.le_succ_of_le (ih true)

/-- In the middle of a whitespace run, the next emitted character is not
whitespace. -/
theorem collapseWsAux_true_head : ∀ (s : List Char) (c : Char) (t : List Char),
    collapseWsAux true s = c :: t → isJsWs c = false := by
  intro s
  induction s with
  | nil => intro c t h; exact absurd h (by simp [collapseWsAux])
  | cons a rest ih =>
    intro c t h
    cases ha : isJsWs a
    · simp [collapseWsAux, ha] at h
      obtain ⟨rfl, -⟩ := h
      exact ha
    · simp [collapseWsAux, ha] at h
      exact ih c t h

/-- No two consecutive whitespace characters. -/
def NoDoubleWs (s : List Char) : Prop :=
  List.Chain' (fun x y => ¬(isJsWs x = true ∧ isJsWs y = true)) s

/-- The output of `collapseWsAux` never has two consecutive whitespace
characters. -/
theorem collapseWsAux_noDoubleWs : ∀ (b : Bool) (s : List Char),
    NoDoubleWs (collapseWsAux b s) := by
  intro b s
  induction s generalizing b with
  | nil => simp [collapseWsAux, NoDoubleWs]
  | cons a rest ih =>
    cases ha : isJsWs a
    · simp only [collapseWsAux, ha, Bool.false_eq_true, if_false]
      unfold NoDoubleWs at ih ⊢
      rw [List.chain'_cons']
      refine ⟨?_, ih false⟩
      intro y _
      intro hcon
      rw [ha] at hcon
      exact absurd hcon.1 (by simp)
    · cases b
      · simp only [collapseWsAux, ha, if_true, Bool.false_eq_true, if_false]
        unfold NoDoubleWs at ih ⊢
        rw [List.chain'_cons']
        refine ⟨?_, ih true⟩
        intro y hy
        intro hcon
        cases hAux : collapseWsAux true rest with
        | nil => rw [hAux] at hy; simp at hy
        | cons z zs =>
          rw [hAux] at hy
          simp only [List.head?_cons, Option.mem_def, Option.some.injEq] at hy
          subst hy
          exact absurd hcon.2 (by simp [collapseWsAux_true_head rest z zs hAux])
      · simp only [collapseWsAux, ha, if_true]
        exact ih true

/-- Every whitespace character emitted by `collapseWsAux` is a plain space. -/
theorem collapseWsAux_ws_space : ∀ (b : Bool) (s : List Char) (c : Char),
    c ∈ collapseWsAux b s → isJsWs c = true → c = ' ' := by
  intro b s
  induction s generalizing b with
  | nil => simp [collapseWsAux]
  | cons a rest ih =>
    intro c hc hws
    cases ha : isJsWs a
    · simp only [collapseWsAux, ha, Bool.false_eq_true, if_false, List.mem_cons] at hc
      rcases hc with rfl | hc
      · rw [ha] at hws; exact absurd hws (by simp)
      · exact ih false c hc hws
    · cases b
      · simp only [collapseWsAux, ha, if_true, Bool.false_eq_true, if_false,
          List.mem_cons] at hc
        rcases hc with rfl | hc
        · rfl
        · exact ih true c hc hws
      · simp only [collapseWsAux, ha, if_true] at hc
        exact ih true c hc hws

/-- `collapseWsAux` is the identity on strings with no double whitespace whose
whitespace characters are all plain spaces (for the in-run flag, additionally
when the head is not whitespace). -/
theorem collapseWsAux_id : ∀ s : List Char, NoDoubleWs s →
    (∀ c ∈ s, isJsWs c = true → c = ' ') →
    (collapseWsAux false s = s ∧
      ((∀ c t, s = c :: t → isJsWs c = false) → collapseWsAux true s = s)) := by
  intro s
  induction s with
  | nil => intro _ _; exact ⟨rfl, fun _ => rfl⟩
  | cons a rest ih =>
    intro hch hsp
    have hch2 : NoDoubleWs rest := (List.chain'_cons'.mp hch).2
    have hhead : ∀ y ∈ rest.head?, ¬(isJsWs a = true ∧ isJsWs y = true) :=
      (List.chain'_cons'.mp hch).1
    have hsp2 : ∀ c ∈ rest, isJsWs c = true → c = ' ' :=
      fun c hc => hsp c (List.mem_cons_of_mem a hc)
    obtain ⟨ih1, ih2⟩ := ih hch2 hsp2
    cases ha : isJsWs a
    · constructor
      · simp [collapseWsAux, ha, ih1]
      · intro _
        simp [collapseWsAux, ha, ih1]
    · have haspace : a = ' ' := hsp a (List.mem_cons_self a rest) ha
      constructor
      · have hresthead : ∀ c t, rest = c :: t → isJsWs c = false := by
          intro c t hrest
          have hy := hhead c (by rw [hrest]; rfl)
          cases hwc : isJsWs c
          · rfl
          · exact absurd ⟨ha, hwc⟩ hy
        have hspws : isJsWs ' ' = true := by decide
        subst haspace
        simp [collapseWsAux, hspws, ih2 hresthead]
      · intro hhd
        have := hhd a rest rfl
        rw [ha] at this
        exact absurd this (by simp)

/-- `collapseWsAux` preserves a non-whitespace last character. -/
theorem collapseWsAux_getLast : ∀ (b : Bool) (s : List Char) (c : Char),
    s.getLast? = some c → isJsWs c = false →
    (collapseWsAux b s).getLast? = some c := by
  intro b s
  induction s generalizing b with
  | nil => intro c h _; simp at h
  | cons a rest ih =>
    intro c hlast hws
    cases hrest : rest with
    | nil =>
      subst hrest
      simp only [List.getLast?_singleton, Option.some.injEq] at hlast
      subst hlast
      cases ha : isJsWs a
      · simp [collapseWsAux, ha]
      · exact absurd hws (by simp [ha])
    | cons a2 rest2 =>
      subst hrest
      have hlast2 : (a2 :: rest2).getLast? = some c := by
        rw [List.getLast?_cons_cons] at hlast
        exact hlast
      cases ha : isJsWs a
      · simp only [collapseWsAux, ha, Bool.false_eq_true, if_false]
        exact getLast?_cons_eq a _ c (ih false c hlast2 hws)
      · cases b
        · simp only [collapseWsAux, ha, if_true, Bool.false_eq_true, if_false]
          exact getLast?_cons_eq ' ' _ c (ih true c hlast2 hws)
        · simp only [collapseWsAux, ha, if_true]
          exact ih true c hlast2 hws

/-- The head of `collapseWs (jsTrim s)`, when present, is not whitespace. -/
theorem collapse_trim_head (s : List Char) (d : Char) (r : List Char)
    (h : collapseWs (jsTrim s) = d :: r) : isJsWs d = false := by
  cases ht : jsTrim s with
  | nil => rw [ht] at h; exact absurd h (by simp [collapseWs, collapseWsAux])
  | cons e r2 =>
    have he := jsTrim_head_false s e r2 ht
    rw [ht] at h
    simp only [collapseWs, collapseWsAux, he, Bool.false_eq_true, if_false,
      List.cons.injEq] at h
    obtain ⟨rfl, -⟩ := h
    exact he

/-- Concrete input for C8: 501 letters `a` separated by single spaces, a
string of 1001 characters whose trimmed and collapsed form is itself. -/
def c8badInput : List Char := (List.replicate 500 (str "a ")).flatten ++ str "a"

set_option maxRecDepth 10000 in
/-- C8 is refuted: `formatUserInput` is not idempotent. Truncation to 1000
characters happens after whitespace collapsing, so it can cut directly after
a space; the second application trims that trailing space away. -/
theorem formatUserInput_idempotent_counterexample :
    ¬ (formatUserInput (formatUserInput c8badInput) = formatUserInput c8badInput) := by
  decide

/-- C8 (amended): every output of `formatUserInput` has length at most 1000,
has no leading whitespace and no two consecutive whitespace characters; and
`formatUserInput` is idempotent on every input of length at most 1000 (where
no truncation can occur). Trailing whitespace, and with it idempotence on
longer inputs, can be violated by truncation. -/
theorem formatUserInput_amended_spec :
    ∀ x : List Char,
      (formatUserInput x).length ≤ 1000
      ∧ (∀ c t, formatUserInput x = c :: t → isJsWs c = false)
      ∧ NoDoubleWs (formatUserInput x)
      ∧ (x.length ≤ 1000 →
          formatUserInput (formatUserInput x) = formatUserInput x) := by
  intro x
  by_cases hx : x = []
  · subst hx
    exact ⟨by simp [formatUserInput], by simp [formatUserInput],
      by simp [formatUserInput, NoDoubleWs], by simp [formatUserInput]⟩
  · have hfu : formatUserInput x = (collapseWs (jsTrim x)).take 1000 := by
      simp [formatUserInput, hx]
    refine ⟨?_, ?_, ?_, ?_⟩
    · rw [hfu]
      have := List.length_take 1000 (collapseWs (jsTrim x))
      omega
    · intro c t h
      rw [hfu] at h
      have hpre := List.take_prefix 1000 (collapseWs (jsTrim x))
      rw [h] at hpre
      obtain ⟨u, hu⟩ := hpre
      exact collapse_trim_head x c (t ++ u) (by rw [← hu]; simp)
    · rw [hfu]
      exact List.Chain'.take (collapseWsAux_noDoubleWs false (jsTrim x)) 1000
    · intro hlen
      have hylen : (collapseWs (jsTrim x)).length ≤ 1000 :=
        le_trans (collapseWsAux_length false (jsTrim x))
          (le_trans (jsTrim_length_le x) hlen)
      have htake : (collapseWs (jsTrim x)).take 1000 = collapseWs (jsTrim x) :=
        List.take_of_length_le hylen
      rw [hfu, htake]
      by_cases hy0 : collapseWs (jsTrim x) = []
      · rw [hy0]
        simp [formatUserInput]
      · obtain ⟨d, r, hdr⟩ := List.exists_cons_of_ne_nil hy0
        have hdws : isJsWs d = false := collapse_trim_head x d r hdr
        have htne : jsTrim x ≠ [] := by
          intro h0
          apply hy0
          simp [collapseWs, collapseWsAux, h0]
        obtain ⟨c, hc⟩ := getLast?_some_of_ne_nil (jsTrim x) htne
        have hcws : isJsWs c = false := jsTrim_last_false x c hc
        have hcy : (collapseWs (jsTrim x)).getLast? = some c :=
          collapseWsAux_getLast false (jsTrim x) c hc hcws
        have hhead : ∀ e t, collapseWs (jsTrim x) = e :: t → isJsWs e = false :=
          fun e t het => collapse_trim_head x e t het
        have h1 : (collapseWs (jsTrim x)).dropWhile isJsWs = collapseWs (jsTrim x) :=
          dropWhile_eq_self_of_head isJsWs _ hhead
        have h2 : List.rdropWhile isJsWs (collapseWs (jsTrim x)) = collapseWs (jsTrim x) :=
          rdropWhile_eq_self_of_last isJsWs _ (by
            intro e he
            rw [hcy] at he
            injection he with h3
            subst h3
            exact hcws)
        have htr : jsTrim (collapseWs (jsTrim x)) = collapseWs (jsTrim x) := by
          show List.rdropWhile isJsWs ((collapseWs (jsTrim x)).dropWhile isJsWs) =
            collapseWs (jsTrim x)
          rw [h1, h2]
        have hcoll : collapseWs (collapseWs (jsTrim x)) = collapseWs (jsTrim x) :=
          (collapseWsAux_id (collapseWs (jsTrim x))
            (collapseWsAux_noDoubleWs false (jsTrim x))
            (collapseWsAux_ws_space false (jsTrim x))).1
        simp only [formatUserInput, if_neg hy0]
        rw [htr, hcoll]
        exact List.take_of_length_le hylen

/-- Instantiation of `formatUserInput_amended_spec`: idempotence on a short
concrete input, discharging the length hypothesis by evaluation. -/
theorem formatUserInput_amended_spec_witness :
    (str "  hi \t there  ").length ≤ 1000
    ∧ formatUserInput (formatUserInput (str "  hi \t there  "))
        = formatUserInput (str "  hi \t there  ") :=
  ⟨by decide, ((formatUserInput_amended_spec (str "  hi \t there  ")).2.2.2) (by decide)⟩

/-- `MessageFormatter.sanitizeHTML` (src/unnamed/part_000, lines 35-39). The
source delegates to the browser DOM (`div.textContent = content; return
div.innerHTML`), an external collaborator per the specification; this models
the escaping that round trip performs on the markup-significant characters. -/
def sanitizeHTML (content : List Char) : List Char :=
  content.flatMap fun c =>
    if c = '&' then str "&amp;"
    else if c = '<' then str "&lt;"
    else if c = '>' then str "&gt;"
    else [c]

/-- `formatted.replace(/\n/g, '<br>')` (src/unnamed/part_000, line 54). -/
def replaceNewlines (s : List Char) : List Char :=
  s.flatMap fun c => if c = '\n' then str "<br>" else [c]

/-- The part of a URL match after a scheme literal `p` known to start `s`:
the greedy non-empty run `[^\s]+` after the scheme. Returns the matched text
and the rest of the string. -/
def urlSchemeMatch (p s : List Char) : Option (List Char × List Char) :=
  if (s.drop p.length).takeWhile (fun c => !(isJsWs c)) = [] then none
  else some (p ++ (s.drop p.length).takeWhile (fun c => !(isJsWs c)),
             (s.drop p.length).dropWhile (fun c => !(isJsWs c)))

/-- Match of the URL regex `/(https?:\/\/[^\s]+)/` anchored at the start of
`s`: one of the two scheme literals (they are mutually exclusive prefixes)
followed by a greedy non-empty run of non-whitespace characters. -/
def scanUrlMatch (s : List Char) : Option (List Char × List Char) :=
  if str "https://" <+: s then urlSchemeMatch (str "https://") s
  else if str "http://" <+: s then urlSchemeMatch (str "http://") s
  else none

/-- Match of the phone regex `/(\+254\d{9}|\d{10})/` anchored at the start of
`s`: the alternation first tries `+254` followed by exactly nine digits,
otherwise exactly ten digits. -/
def scanPhoneMatch (s : List Char) : Option (List Char × List Char) :=
  if str "+254" <+: s ∧ 9 ≤ (s.drop 4).length ∧
      ∀ c ∈ (s.drop 4).take 9, c.isDigit = true then
    some (s.take 13, s.drop 13)
  else if 10 ≤ s.length ∧ ∀ c ∈ s.take 10, c.isDigit = true then
    some (s.take 10, s.drop 10)
  else none

/-- One pass of JS `String.prototype.replace` with a global regex: scan left
to right, rewrite each leftmost match through `wrap`, and continue after the
match. The fuel argument bounds the remaining length; `scanReplace` supplies
`s.length`, which suffices because every match consumes at least one
character. -/
def scanReplaceAux (scan : List Char → Option (List Char × List Char))
    (wrap : List Char → List Char) : Nat → List Char → List Char
  | 0, s => s
  | _ + 1, [] => []
  | fuel + 1, c :: t =>
    match scan (c :: t) with
    | some (m, r) => wrap m ++ scanReplaceAux scan wrap fuel r
    | none => c :: scanReplaceAux scan wrap fuel t

/-- JS `s.replace(regex, wrap)` for a global regex whose per-position matcher
is `scan`. -/
def scanReplace (scan : List Char → Option (List Char × List Char))
    (wrap : List Char → List Char) (s : List Char) : List Char :=
  scanReplaceAux scan wrap s.length s

/-- The URL replacement
`'<a href="$1" target="_blank" rel="noopener noreferrer">$1</a>'`
(src/unnamed/part_000, line 58). -/
def wrapUrl (m : List Char) : List Char :=
  str "<a href=\"" ++ m ++ str "\" target=\"_blank\" rel=\"noopener noreferrer\">"
    ++ m ++ str "</a>"

/-- The phone replacement `'<a href="tel:$1">$1</a>'`
(src/unnamed/part_000, line 62). -/
def wrapPhone (m : List Char) : List Char :=
  str "<a href=\"tel:" ++ m ++ str "\">" ++ m ++ str "</a>"

/-- `formatted.replace(urlRegex, ...)` (src/unnamed/part_000, lines 57-58). -/
def replaceUrls (s : List Char) : List Char := scanReplace scanUrlMatch wrapUrl s

/-- `formatted.replace(phoneRegex, ...)` (src/unnamed/part_000, lines 61-62). -/
def replacePhones (s : List Char) : List Char := scanReplace scanPhoneMatch wrapPhone s

/-- `MessageFormatter.formatMessage` (src/unnamed/part_000, lines 47-65):
empty content is returned as `''`; otherwise the content (escaped through
`sanitizeHTML` unless `allowHTML`) goes through the newline, URL and phone
substitutions in that order. -/
def formatMessage (content : List Char) (allowHTML : Bool) : List Char :=
  if content = [] then []
  else
    replacePhones (replaceUrls (replaceNewlines
      (if allowHTML then content else sanitizeHTML content)))

example : formatMessage (str "a\nb") true = str "a<br>b" := by decide
example : formatMessage (str "x <3 & y>2") false =
    str "x &lt;3 &amp; y&gt;2" := by decide
example : formatMessage (str "see http://a.io now") true =
    str "see <a href=\"http://a.io\" target=\"_blank\" rel=\"noopener noreferrer\">http://a.io</a> now" := by decide
example : formatMessage (str "call 0712345678!") true =
    str "call <a href=\"tel:0712345678\">0712345678</a>!" := by decide
example : formatMessage (str "+254712345678") true =
    str "<a href=\"tel:+254712345678\">+254712345678</a>" := by decide

/-- Every scheme-anchored URL match consumes at least one character. -/
theorem urlSchemeMatch_length (p s m r : List Char) (hp : p <+: s) (hne : p ≠ [])
    (h : urlSchemeMatch p s = some (m, r)) : r.length < s.length := by
  unfold urlSchemeMatch at h
  by_cases h2 : (s.drop p.length).takeWhile (fun c => !(isJsWs c)) = []
  · rw [if_pos h2] at h
    exact absurd h (by simp)
  · rw [if_neg h2] at h
    simp only [Option.some.injEq, Prod.mk.injEq] at h
    obtain ⟨-, hr⟩ := h
    subst hr
    have hd := (List.dropWhile_suffix (l := s.drop p.length) (fun c => !(isJsWs c))).sublist.length_le
    rw [List.length_drop] at hd
    have hple := hp.length_le
    have hpos : 0 < p.length := List.length_pos.mpr hne
    omega

/-- Every URL match consumes at least one character. -/
theorem scanUrlMatch_length (s m r : List Char)
    (h : scanUrlMatch s = some (m, r)) : r.length < s.length := by
  unfold scanUrlMatch at h
  by_cases h1 : str "https://" <+: s
  · rw [if_pos h1] at h
    exact urlSchemeMatch_length _ s m r h1 (by decide) h
  · rw [if_neg h1] at h
    by_cases h3 : str "http://" <+: s
    · rw [if_pos h3] at h
      exact urlSchemeMatch_length _ s m r h3 (by decide) h
    · rw [if_neg h3] at h
      exact absurd h (by simp)

/-- Every phone match consumes at least one character. -/
theorem scanPhoneMatch_length (s m r : List Char)
    (h : scanPhoneMatch s = some (m, r)) : r.length < s.length := by
  unfold scanPhoneMatch at h
  by_cases h1 : str "+254" <+: s ∧ 9 ≤ (s.drop 4).length ∧
      ∀ c ∈ (s.drop 4).take 9, c.isDigit = true
  · rw [if_pos h1] at h
    simp only [Option.some.injEq, Prod.mk.injEq] at h
    obtain ⟨-, hr⟩ := h
    subst hr
    have h9 := h1.2.1
    rw [List.length_drop] at h9
    rw [List.length_drop]
    omega
  · rw [if_neg h1] at h
    by_cases h2 : 10 ≤ s.length ∧ ∀ c ∈ s.take 10, c.isDigit = true
    · rw [if_pos h2] at h
      simp only [Option.some.injEq, Prod.mk.injEq] at h
      obtain ⟨-, hr⟩ := h
      subst hr
      have h10 := h2.1
      rw [List.length_drop]
      omega
    · rw [if_neg h2] at h
      exact absurd h (by simp)

/-- The fuel argument of `scanReplaceAux` is irrelevant once it bounds the
length of the input, because every match shortens the remainder. -/
theorem scanReplaceAux_congr (scan : List Char → Option (List Char × List Char))
    (wrap : List Char → List Char)
    (hscan : ∀ s m r, scan s = some (m, r) → r.length < s.length) :
    ∀ (f1 : Nat) (s : List Char) (f2 : Nat), s.length ≤ f1 → s.length ≤ f2 →
      scanReplaceAux scan wrap f1 s = scanReplaceAux scan wrap f2 s := by
  intro f1
  induction f1 with
  | zero =>
    intro s f2 h1 _
    have hs : s = [] := List.length_eq_zero.mp (Nat.le_zero.mp h1)
    subst hs
    cases f2 <;> rfl
  | succ k ih =>
    intro s f2 h1 h2
    cases s with
    | nil => cases f2 <;> rfl
    | cons c t =>
      cases f2 with
      | zero => simp at h2
      | succ j =>
        simp only [List.length_cons] at h1 h2
        cases hm : scan (c :: t) with
        | none =>
          simp only [scanReplaceAux, hm]
          rw [ih t j (by omega) (by omega)]
        | some mr =>
          obtain ⟨m, r⟩ := mr
          simp only [scanReplaceAux, hm]
          have hlt := hscan (c :: t) m r hm
          simp only [List.length_cons] at hlt
          rw [ih r j (by omega) (by omega)]

/-- Scanning step on a position with no match: keep the character. -/
theorem scanReplace_cons_none (scan : List Char → Option (List Char × List Char))
    (wrap : List Char → List Char) (c : Char) (t : List Char)
    (h : scan (c :: t) = none) :
    scanReplace scan wrap (c :: t) = c :: scanReplace scan wrap t := by
  unfold scanReplace
  simp only [List.length_cons, scanReplaceAux, h]


/-- Scanning step on a match: emit the wrapped match and continue after it. -/
theorem scanReplace_cons_some (scan : List Char → Option (List Char × List Char))
    (wrap : List Char → List Char)
    (hscan : ∀ s m r, scan s = some (m, r) → r.length < s.length)
    (s m r : List Char) (h : scan s = some (m, r)) :
    scanReplace scan wrap s = wrap m ++ scanReplace scan wrap r := by
  cases s with
  | nil =>
    have := hscan [] m r h
    simp at this
  | cons c t =>
    unfold scanReplace
    simp only [List.length_cons, scanReplaceAux, h]
    have hlt := hscan (c :: t) m r h
    simp only [List.length_cons] at hlt
    rw [scanReplaceAux_congr scan wrap hscan t.length r r.length (by omega) (le_refl _)]

/-- `takeWhile`/`dropWhile` on an explicit decomposition: a block of elements
satisfying the predicate followed by a rest whose head fails it. -/
theorem takeWhile_dropWhile_append {α : Type} (p : α → Bool) :
    ∀ (run r : List α), (∀ c ∈ run, p c = true) →
      (∀ c t, r = c :: t → p c = false) →
      (run ++ r).takeWhile p = run ∧ (run ++ r).dropWhile p = r := by
  intro run
  induction run with
  | nil =>
    intro r _ hr
    simp only [List.nil_append]
    cases r with
    | nil => exact ⟨rfl, rfl⟩
    | cons c t => simp [List.takeWhile_cons, List.dropWhile_cons, hr c t rfl]
  | cons a run2 ih =>
    intro r hrun hr
    have ha : p a = true := hrun a (List.mem_cons_self a run2)
    have ih2 := ih r (fun c hc => hrun c (List.mem_cons_of_mem a hc)) hr
    simp [List.takeWhile_cons, List.dropWhile_cons, ha, ih2.1, ih2.2]

/-- The scheme literal `https://` cannot start a string that the literal
`http://` starts. -/
theorem not_https_of_http (x : List Char) :
    ¬ (str "https://" <+: str "http://" ++ x) := by
  intro h
  have h2 : str "http://" <+: str "http://" ++ x := ⟨x, rfl⟩
  exact absurd (List.prefix_of_prefix_length_le h2 h (by decide)) (by decide)

/-- Characterization of a scheme-anchored URL match, given that the scheme
literal `p` starts `s`. -/
theorem urlSchemeMatch_iff (p s m r : List Char) (hp : p <+: s) :
    urlSchemeMatch p s = some (m, r) ↔
      ∃ run, s = p ++ run ++ r
        ∧ run ≠ []
        ∧ (∀ c ∈ run, isJsWs c = false)
        ∧ (∀ c t, r = c :: t → isJsWs c = true)
        ∧ m = p ++ run := by
  obtain ⟨rest, hrest⟩ := hp
  have hdrop : s.drop p.length = rest := by rw [← hrest]; exact List.drop_left p rest
  constructor
  · intro h
    unfold urlSchemeMatch at h
    by_cases h2 : (s.drop p.length).takeWhile (fun c => !(isJsWs c)) = []
    · rw [if_pos h2] at h
      exact absurd h (by simp)
    · rw [if_neg h2] at h
      simp only [Option.some.injEq, Prod.mk.injEq] at h
      obtain ⟨hm, hr⟩ := h
      refine ⟨(s.drop p.length).takeWhile (fun c => !(isJsWs c)), ?_, h2, ?_, ?_, hm.symm⟩
      · rw [← hr, hdrop, ← hrest, List.append_assoc, List.takeWhile_append_dropWhile]
      · intro c hc
        have := List.mem_takeWhile_imp hc
        simpa using this
      · intro c t hct
        rw [← hr] at hct
        have := dropWhile_head_false (fun c => !(isJsWs c)) _ c t hct
        simpa using this
  · intro h
    obtain ⟨run, hs, hne, hrun, hr, hm⟩ := h
    have hrest2 : rest = run ++ r := by
      have : p ++ rest = p ++ (run ++ r) := by
        rw [hrest, hs, List.append_assoc]
      exact List.append_cancel_left this
    have htw := takeWhile_dropWhile_append (fun c => !(isJsWs c)) run r
      (fun c hc => by simpa using hrun c hc)
      (fun c t hct => by simpa using hr c t hct)
    unfold urlSchemeMatch
    rw [hdrop, hrest2, if_neg (by rw [htw.1]; exact hne), htw.1, htw.2, hm]

/-- Characterization of a URL match: a scheme literal followed by a maximal
non-empty run of non-whitespace characters (the remainder starts with
whitespace or is empty). -/
theorem scanUrlMatch_iff (s m r : List Char) :
    scanUrlMatch s = some (m, r) ↔
      ∃ p run, (p = str "http://" ∨ p = str "https://")
        ∧ s = p ++ run ++ r ∧ run ≠ []
        ∧ (∀ c ∈ run, isJsWs c = false)
        ∧ (∀ c t, r = c :: t → isJsWs c = true)
        ∧ m = p ++ run := by
  constructor
  · intro h
    unfold scanUrlMatch at h
    by_cases h1 : str "https://" <+: s
    · rw [if_pos h1] at h
      obtain ⟨run, hs, hne, hrun, hr, hm⟩ := (urlSchemeMatch_iff _ s m r h1).mp h
      exact ⟨str "https://", run, Or.inr rfl, hs, hne, hrun, hr, hm⟩
    · rw [if_neg h1] at h
      by_cases h3 : str "http://" <+: s
      · rw [if_pos h3] at h
        obtain ⟨run, hs, hne, hrun, hr, hm⟩ := (urlSchemeMatch_iff _ s m r h3).mp h
        exact ⟨str "http://", run, Or.inl rfl, hs, hne, hrun, hr, hm⟩
      · rw [if_neg h3] at h
        exact absurd h (by simp)
  · intro h
    obtain ⟨p, run, hp, hs, hne, hrun, hr, hm⟩ := h
    unfold scanUrlMatch
    rcases hp with rfl | rfl
    · have h1 : ¬ (str "https://" <+: s) := by
        rw [hs, List.append_assoc]
        exact not_https_of_http (run ++ r)
      have h3 : str "http://" <+: s := ⟨run ++ r, by rw [hs, List.append_assoc]⟩
      rw [if_neg h1, if_pos h3]
      exact (urlSchemeMatch_iff _ s m r h3).mpr ⟨run, hs, hne, hrun, hr, hm⟩
    · have h1 : str "https://" <+: s := ⟨run ++ r, by rw [hs, List.append_assoc]⟩
      rw [if_pos h1]
      exact (urlSchemeMatch_iff _ s m r h1).mpr ⟨run, hs, hne, hrun, hr, hm⟩

/-- Characterization of a phone match: `+254` followed by exactly nine digits
when possible, otherwise exactly ten digits; the alternation's first branch
takes precedence. -/
theorem scanPhoneMatch_iff (s m r : List Char) :
    scanPhoneMatch s = some (m, r) ↔
      ((∃ d, s = (str "+254" ++ d) ++ r ∧ m = str "+254" ++ d ∧ d.length = 9
          ∧ ∀ c ∈ d, c.isDigit = true)
        ∨ ((¬ ∃ d t, s = str "+254" ++ d ++ t ∧ d.length = 9
              ∧ ∀ c ∈ d, c.isDigit = true)
            ∧ s = m ++ r ∧ m.length = 10 ∧ ∀ c ∈ m, c.isDigit = true)) := by
  constructor
  · intro h
    unfold scanPhoneMatch at h
    by_cases h1 : str "+254" <+: s ∧ 9 ≤ (s.drop 4).length ∧
        ∀ c ∈ (s.drop 4).take 9, c.isDigit = true
    · rw [if_pos h1] at h
      simp only [Option.some.injEq, Prod.mk.injEq] at h
      obtain ⟨hm, hr⟩ := h
      obtain ⟨hpre, hlen, hdig⟩ := h1
      obtain ⟨t, ht⟩ := hpre
      have hdrop : s.drop 4 = t := by
        rw [← ht]
        exact List.drop_left' (by decide)
      have htlen : 9 ≤ t.length := by rw [hdrop] at hlen; exact hlen
      have ht9 : (t.take 9).length = 9 := by
        rw [List.length_take]
        omega
      have hsplit : s = (str "+254" ++ t.take 9) ++ t.drop 9 := by
        rw [← ht, List.append_assoc, List.take_append_drop]
      have h13 : (str "+254" ++ t.take 9).length = 13 := by
        rw [List.length_append, ht9]
        decide
      have hm13 : s.take 13 = str "+254" ++ t.take 9 := by
        rw [hsplit]
        exact List.take_left' h13
      have hr13 : s.drop 13 = t.drop 9 := by
        rw [hsplit]
        exact List.drop_left' h13
      left
      refine ⟨t.take 9, ?_, ?_, ht9, ?_⟩
      · rw [← hr, hr13]
        exact hsplit
      · rw [← hm, hm13]
      · intro c hc
        apply hdig c
        rw [hdrop]
        exact hc
    · rw [if_neg h1] at h
      by_cases h2 : 10 ≤ s.length ∧ ∀ c ∈ s.take 10, c.isDigit = true
      · rw [if_pos h2] at h
        simp only [Option.some.injEq, Prod.mk.injEq] at h
        obtain ⟨hm, hr⟩ := h
        right
        refine ⟨?_, ?_, ?_, ?_⟩
        · intro hex
          obtain ⟨d, t2, hsd, hd9, hdd⟩ := hex
          apply h1
          have hdrop : s.drop 4 = d ++ t2 := by
            rw [hsd, List.append_assoc]
            exact List.drop_left' (by decide)
          refine ⟨⟨d ++ t2, by rw [hsd, List.append_assoc]⟩, ?_, ?_⟩
          · rw [hdrop, List.length_append]
            omega
          · intro c hc
            apply hdd c
            rw [hdrop, List.take_left' hd9] at hc
            exact hc
        · rw [← hm, ← hr, List.take_append_drop]
        · rw [← hm, List.length_take]
          omega
        · intro c hc
          apply h2.2 c
          rw [← hm] at hc
          exact hc
      · rw [if_neg h2] at h
        exact absurd h (by simp)
  · intro h
    unfold scanPhoneMatch
    rcases h with ⟨d, hs, hm, hd9, hdig⟩ | ⟨hno, hs, hm10, hdig⟩
    · have h13 : (str "+254" ++ d).length = 13 := by
        rw [List.length_append, hd9]
        decide
      have hdrop : s.drop 4 = d ++ r := by
        rw [hs, List.append_assoc]
        exact List.drop_left' (by decide)
      have h1 : str "+254" <+: s ∧ 9 ≤ (s.drop 4).length ∧
          ∀ c ∈ (s.drop 4).take 9, c.isDigit = true := by
        refine ⟨⟨d ++ r, by rw [hs, List.append_assoc]⟩, ?_, ?_⟩
        · rw [hdrop, List.length_append]
          omega
        · intro c hc
          apply hdig c
          rw [hdrop, show (9 : Nat) = d.length from hd9.symm, List.take_left] at hc
          exact hc
      rw [if_pos h1]
      rw [hs, List.take_left' h13, List.drop_left' h13, hm]
    · have hs10 : 10 ≤ s.length := by
        rw [hs, List.length_append]
        omega
      have h2 : 10 ≤ s.length ∧ ∀ c ∈ s.take 10, c.isDigit = true := by
        refine ⟨hs10, ?_⟩
        intro c hc
        apply hdig c
        rw [hs, List.take_left' hm10] at hc
        exact hc
      have h1 : ¬ (str "+254" <+: s ∧ 9 ≤ (s.drop 4).length ∧
          ∀ c ∈ (s.drop 4).take 9, c.isDigit = true) := by
        intro ⟨hpre, hlen, hdig4⟩
        apply hno
        obtain ⟨t, ht⟩ := hpre
        have hdrop : s.drop 4 = t := by
          rw [← ht]
          exact List.drop_left' (by decide)
        refine ⟨t.take 9, t.drop 9, ?_, ?_, ?_⟩
        · rw [← ht, List.append_assoc, List.take_append_drop]
        · rw [List.length_take]
          rw [hdrop] at hlen
          omega
        · intro c hc
          apply hdig4 c
          rw [hdrop]
          exact hc
      rw [if_neg h1, if_pos h2]
      rw [hs, List.take_left' hm10, List.drop_left' hm10]

/-- C5: `formatMessage` is pure string substitution: `''` on empty content;
otherwise the content (as-is when `allowHTML`, HTML-escaped through
`sanitizeHTML` when not) has every `'\n'` replaced by `'<br>'`, then every
maximal run matching `https?://` followed by non-whitespace wrapped in an
`<a target="_blank" rel="noopener noreferrer">` link, then every match of the
phone pattern (`+254` plus nine digits, or ten consecutive digits) wrapped in
a `tel:` link, where the URL and phone regexes are applied as global
left-to-right leftmost-match replacements. -/
theorem formatMessage_substitution_spec :
    (∀ b : Bool, formatMessage [] b = [])
    ∧ (∀ c : List Char, c ≠ [] →
        formatMessage c true = replacePhones (replaceUrls (replaceNewlines c)))
    ∧ (∀ c : List Char, c ≠ [] →
        formatMessage c false =
          replacePhones (replaceUrls (replaceNewlines (sanitizeHTML c))))
    ∧ (∀ c : List Char, replaceNewlines c =
        c.flatMap fun ch => if ch = '\n' then str "<br>" else [ch])
    ∧ (∀ s m r : List Char, scanUrlMatch s = some (m, r) ↔
        ∃ p run, (p = str "http://" ∨ p = str "https://")
          ∧ s = p ++ run ++ r ∧ run ≠ []
          ∧ (∀ c ∈ run, isJsWs c = false)
          ∧ (∀ c t, r = c :: t → isJsWs c = true)
          ∧ m = p ++ run)
    ∧ (∀ s m r : List Char, scanPhoneMatch s = some (m, r) ↔
        ((∃ d, s = (str "+254" ++ d) ++ r ∧ m = str "+254" ++ d ∧ d.length = 9
            ∧ ∀ c ∈ d, c.isDigit = true)
          ∨ ((¬ ∃ d t, s = str "+254" ++ d ++ t ∧ d.length = 9
                ∧ ∀ c ∈ d, c.isDigit = true)
              ∧ s = m ++ r ∧ m.length = 10 ∧ ∀ c ∈ m, c.isDigit = true)))
    ∧ replaceUrls [] = []
    ∧ (∀ c t, scanUrlMatch (c :: t) = none →
        replaceUrls (c :: t) = c :: replaceUrls t)
    ∧ (∀ s m r, scanUrlMatch s = some (m, r) →
        replaceUrls s = wrapUrl m ++ replaceUrls r)
    ∧ replacePhones [] = []
    ∧ (∀ c t, scanPhoneMatch (c :: t) = none →
        replacePhones (c :: t) = c :: replacePhones t)
    ∧ (∀ s m r, scanPhoneMatch s = some (m, r) →
        replacePhones s = wrapPhone m ++ replacePhones r) := by
  refine ⟨?_, ?_, ?_, ?_, scanUrlMatch_iff, scanPhoneMatch_iff, rfl, ?_, ?_, rfl, ?_, ?_⟩
  · intro b
    rfl
  · intro c hc
    simp [formatMessage, hc]
  · intro c hc
    simp [formatMessage, hc]
  · intro c
    rfl
  · intro c t h
    exact scanReplace_cons_none scanUrlMatch wrapUrl c t h
  · intro s m r h
    exact scanReplace_cons_some scanUrlMatch wrapUrl scanUrlMatch_length s m r h
  · intro c t h
    exact scanReplace_cons_none scanPhoneMatch wrapPhone c t h
  · intro s m r h
    exact scanReplace_cons_some scanPhoneMatch wrapPhone scanPhoneMatch_length s m r h

/-- Instantiation of `formatMessage_substitution_spec`: the non-empty pipeline
equation at a concrete message, discharging the hypothesis by evaluation. -/
theorem formatMessage_substitution_spec_witness :
    str "call 0712345678" ≠ ([] : List Char)
    ∧ formatMessage (str "call 0712345678") true
        = replacePhones (replaceUrls (replaceNewlines (str "call 0712345678"))) :=
  ⟨by decide,
   formatMessage_substitution_spec.2.1 (str "call 0712345678") (by decide)⟩

/-- Parsed JSON body of a `/api/v1/chat` response as read by
`ChatInterface.sendMessage`: the reply text, the crisis flag, and the
resources field (`none` models a missing/falsy field, `some` a truthy one). -/
structure ChatResponse where
  response : List Char
  is_crisis : Bool
  resources : Option (List (List Char))

/-- Parsed JSON body of a `/api/v1/stats` response; `none` models a missing
field (JS `undefined`). -/
structure StatsJson where
  active_users : Option Nat
  total_conversations : Option Nat
  resources_available : Option Nat

/-- Parsed JSON body of a `/api/v1/health` response. -/
structure HealthJson where
  status : List Char
  error : Option (List Char)

/-- Outcome of one browser `fetch`: the promise rejects (network failure)
with an error message, or a response arrives with its `ok` flag, its HTTP
status, and its parsed JSON body. -/
inductive FetchOutcome (α : Type) where
  | reject (msg : List Char)
  | response (ok : Bool) (status : Nat) (body : α)

/-- A fetch outcome that is a failure: a rejected promise or a non-ok
response. -/
def FetchOutcome.isFailure {α : Type} : FetchOutcome α → Bool
  | .reject _ => true
  | .response ok _ _ => !ok

/-- JSON body of the POST issued by `APIService.sendMessage`
(src/unnamed/part_001, lines 32-37), fields in source order. -/
structure ChatRequestBody where
  user_id : List Char
  message : List Char
  language : List Char
  platform : List Char

/-- An HTTP request to the chat endpoint. -/
structure ChatHttpRequest where
  url : List Char
  method : List Char
  contentType : List Char
  body : ChatRequestBody

/-- `this.baseURL` (src/unnamed/part_001, line 8). -/
def APIService.baseURL : List Char := str "http://localhost:8000"

/-- `this.endpoints.chat` (src/unnamed/part_001, line 10). -/
def APIService.chatEndpoint : List Char := str "/api/v1/chat"

/-- The JS default of the `language` parameter of `APIService.sendMessage`. -/
def APIService.sendMessageDefaultLanguage : List Char := str "en"

/-- The JS default of the `platform` parameter of `APIService.sendMessage`. -/
def APIService.sendMessageDefaultPlatform : List Char := str "web"

/-- `APIService.sendMessage` (src/unnamed/part_001, lines 25-49): one POST to
`baseURL + '/api/v1/chat'` with JSON body `{user_id, message, language,
platform}`; an ok response yields its parsed JSON, and every failure
(rejected fetch or non-ok status) is re-thrown as
`'Failed to send message. Please try again.'`. -/
def APIService.sendMessage (message userId language platform : List Char)
    (f : FetchOutcome ChatResponse) :
    ChatHttpRequest × Except (List Char) ChatResponse :=
  (⟨APIService.baseURL ++ APIService.chatEndpoint, str "POST",
      str "application/json", ⟨userId, message, language, platform⟩⟩,
   match f with
   | .reject _ => .error (str "Failed to send message. Please try again.")
   | .response ok _ body =>
     if ok then .ok body
     else .error (str "Failed to send message. Please try again."))

/-- `APIService.getStats` (src/unnamed/part_001, lines 55-73): parsed JSON on
an ok response; the zeroed default stats object on every failure. -/
def APIService.getStats (f : FetchOutcome StatsJson) : StatsJson :=
  match f with
  | .reject _ => ⟨some 0, some 0, some 0⟩
  | .response ok _ body => if ok then body else ⟨some 0, some 0, some 0⟩

/-- `APIService.getResources` (src/unnamed/part_001, lines 79-92): parsed
JSON on an ok response; every failure is re-thrown as
`'Failed to load resources'`. -/
def APIService.getResources {α : Type} (f : FetchOutcome α) :
    Except (List Char) α :=
  match f with
  | .reject _ => .error (str "Failed to load resources")
  | .response ok _ body =>
    if ok then .ok body else .error (str "Failed to load resources")

/-- `APIService.checkHealth` (src/unnamed/part_001, lines 98-111): parsed
JSON on an ok response; `{status: 'unhealthy', error: <message>}` on every
failure (a non-ok response throws `HTTP error! status: <status>` first). -/
def APIService.checkHealth (f : FetchOutcome HealthJson) : HealthJson :=
  match f with
  | .reject msg => ⟨str "unhealthy", some msg⟩
  | .response ok status body =>
    if ok then body
    else ⟨str "unhealthy",
      some (str "HTTP error! status: " ++ (toString status).toList)⟩

/-- `APIService.sendFeedback` (src/unnamed/part_001, lines 120-143): parsed
JSON on an ok response; every failure is re-thrown as
`'Failed to send feedback'`. -/
def APIService.sendFeedback {α : Type} (userId messageId feedback : List Char)
    (f : FetchOutcome α) : Except (List Char) α :=
  match f with
  | .reject _ => .error (str "Failed to send feedback")
  | .response ok _ body =>
    if ok then .ok body else .error (str "Failed to send feedback")

/-- C3: `APIService.sendMessage(message, userId, language, platform)` issues
exactly one POST to `baseURL + '/api/v1/chat'` whose JSON body is exactly
`{user_id: userId, message, language, platform}`, the defaults of the
omitted parameters being `'en'` and `'web'`, and returns the parsed JSON of
an ok response. -/
theorem apiSendMessage_request_spec :
    (∀ (message userId language platform : List Char) (f : FetchOutcome ChatResponse),
        (APIService.sendMessage message userId language platform f).1 =
          ⟨APIService.baseURL ++ str "/api/v1/chat", str "POST",
            str "application/json", ⟨userId, message, language, platform⟩⟩)
    ∧ (∀ (message userId language platform : List Char) (j : ChatResponse) (status : Nat),
        (APIService.sendMessage message userId language platform
            (FetchOutcome.response true status j)).2 = Except.ok j)
    ∧ APIService.sendMessageDefaultLanguage = str "en"
    ∧ APIService.sendMessageDefaultPlatform = str "web" :=
  ⟨fun _ _ _ _ _ => rfl, fun _ _ _ _ _ _ => rfl, rfl, rfl⟩

/-- C9: `getStats` and `checkHealth` swallow every failure (returning the
zeroed stats object, resp. an `unhealthy` status object) and return the
parsed JSON of an ok response, while `sendMessage`, `getResources` and
`sendFeedback` re-throw on every failure. -/
theorem api_error_propagation_spec :
    (∀ f : FetchOutcome StatsJson, f.isFailure = true →
        APIService.getStats f = ⟨some 0, some 0, some 0⟩)
    ∧ (∀ (j : StatsJson) (status : Nat),
        APIService.getStats (FetchOutcome.response true status j) = j)
    ∧ (∀ f : FetchOutcome HealthJson, f.isFailure = true →
        (APIService.checkHealth f).status = str "unhealthy")
    ∧ (∀ (j : HealthJson) (status : Nat),
        APIService.checkHealth (FetchOutcome.response true status j) = j)
    ∧ (∀ (message userId language platform : List Char)
        (f : FetchOutcome ChatResponse), f.isFailure = true →
          (APIService.sendMessage message userId language platform f).2 =
            Except.error (str "Failed to send message. Please try again."))
    ∧ (∀ (α : Type) (f : FetchOutcome α), f.isFailure = true →
        APIService.getResources f =
          Except.error (str "Failed to load resources"))
    ∧ (∀ (α : Type) (j : α) (status : Nat),
        APIService.getResources (FetchOutcome.response true status j) =
          Except.ok j)
    ∧ (∀ (α : Type) (userId messageId feedback : List Char) (f : FetchOutcome α),
        f.isFailure = true →
          APIService.sendFeedback userId messageId feedback f =
            Except.error (str "Failed to send feedback")) := by
  refine ⟨?_, fun _ _ => rfl, ?_, fun _ _ => rfl, ?_, ?_, fun _ _ _ => rfl, ?_⟩
  · intro f h
    cases f with
    | reject m => rfl
    | response ok st b =>
      simp only [FetchOutcome.isFailure, Bool.not_eq_true'] at h
      simp [APIService.getStats, h]
  · intro f h
    cases f with
    | reject m => rfl
    | response ok st b =>
      simp only [FetchOutcome.isFailure, Bool.not_eq_true'] at h
      simp [APIService.checkHealth, h]
  · intro message userId language platform f h
    cases f with
    | reject m => rfl
    | response ok st b =>
      simp only [FetchOutcome.isFailure, Bool.not_eq_true'] at h
      simp [APIService.sendMessage, h]
  · intro α f h
    cases f with
    | reject m => rfl
    | response ok st b =>
      simp only [FetchOutcome.isFailure, Bool.not_eq_true'] at h
      simp [APIService.getResources, h]
  · intro α userId messageId feedback f h
    cases f with
    | reject m => rfl
    | response ok st b =>
      simp only [FetchOutcome.isFailure, Bool.not_eq_true'] at h
      simp [APIService.sendFeedback, h]

/-- Instantiation of `api_error_propagation_spec`: the swallowed failure of
`getStats` and the re-thrown failure of `getResources` at a concrete rejected
fetch. -/
theorem api_error_propagation_spec_witness :
    (FetchOutcome.reject (α := StatsJson) (str "network down")).isFailure = true
    ∧ APIService.getStats (FetchOutcome.reject (str "network down")) =
        ⟨some 0, some 0, some 0⟩
    ∧ APIService.getResources (FetchOutcome.reject (α := Nat) (str "network down")) =
        Except.error (str "Failed to load resources") :=
  ⟨rfl,
   api_error_propagation_spec.1 (FetchOutcome.reject (str "network down")) rfl,
   api_error_propagation_spec.2.2.2.2.2.1 Nat
     (FetchOutcome.reject (str "network down")) rfl⟩

/-- A message element rendered into the messages node by
`ChatInterface.addMessage`: its CSS class and its bubble HTML. -/
structure RenderedMsg where
  cssClass : List Char
  html : List Char

/-- An entry of `ChatInterface.messageHistory` (ids, timestamps and metadata
objects are not modelled). -/
structure HistEntry where
  type : List Char
  content : List Char

/-- The widget state touched by the embedded `ChatInterface` methods: input
box, typing flag with its indicator and button, rendered messages, history,
crisis alert, and the three stat nodes. -/
structure ChatState where
  inputValue : List Char
  isTyping : Bool
  currentLanguage : List Char
  userId : List Char
  messages : List RenderedMsg
  messageHistory : List HistEntry
  crisisAlertShown : Bool
  crisisResourcesHtml : List Char
  typingIndicatorShown : Bool
  sendButtonDisabled : Bool
  statActiveUsers : Nat
  statTotalConversations : Nat
  statResourcesAvailable : Nat

/-- `MessageFormatter.formatCrisisResources` (src/unnamed/part_000,
lines 144-158). -/
def formatCrisisResources (resources : List (List Char))
    (language : List Char) : List Char :=
  if resources = [] then []
  else
    str "<p><strong>"
      ++ MessageFormatter.translate (str "crisisMessage") language
      ++ str "</strong></p><div class=\"resources\">"
      ++ (resources.flatMap fun resource =>
            str "<div class=\"resource-item\">" ++ formatMessage resource true
              ++ str "</div>")
      ++ str "</div>"

/-- `ChatInterface.addMessage` (LanguageToggle.js, lines 548-578): append a
`div` of class `message <type>` whose bubble is `formatMessage(content,
true)` to the messages node, and push `{type, content}` onto the history. -/
def ChatInterface.addMessage (st : ChatState) (content ty : List Char) : ChatState :=
  { st with
    messages := st.messages
      ++ [⟨str "message " ++ ty, formatMessage content true⟩],
    messageHistory := st.messageHistory ++ [⟨ty, content⟩] }

/-- `ChatInterface.showTyping` (LanguageToggle.js, lines 583-591). -/
def ChatInterface.showTyping (st : ChatState) (b : Bool) : ChatState :=
  { st with isTyping := b, typingIndicatorShown := b, sendButtonDisabled := b }

/-- `ChatInterface.showCrisisAlert` (LanguageToggle.js, lines 596-605): fill
the crisis resources node and add the `show` class (the 15-second auto-hide
timer is real time and is not modelled). -/
def ChatInterface.showCrisisAlert (st : ChatState)
    (resources : List (List Char)) : ChatState :=
  { st with
    crisisAlertShown := true,
    crisisResourcesHtml := formatCrisisResources resources st.currentLanguage }

/-- `ChatInterface.updateStats` (LanguageToggle.js, lines 610-621): fetch the
stats through `APIService.getStats` (which never throws) and write the three
fields into the stat nodes with `|| 0` fallbacks. -/
def ChatInterface.updateStats (st : ChatState)
    (f : FetchOutcome StatsJson) : ChatState :=
  { st with
    statActiveUsers := (APIService.getStats f).active_users.getD 0,
    statTotalConversations := (APIService.getStats f).total_conversations.getD 0,
    statResourcesAvailable := (APIService.getStats f).resources_available.getD 0 }

/-- `ChatInterface.sendMessage` (LanguageToggle.js, lines 496-543) as a state
transition. The outcome of the chat fetch and the outcome of the stats fetch
fired by the success path's `updateStats()` are oracle arguments; the second
component is the chat request issued (`none` when the guard returns early). -/
def ChatInterface.sendMessage (st : ChatState) (f : FetchOutcome ChatResponse)
    (fs : FetchOutcome StatsJson) : ChatState × Option ChatHttpRequest :=
  let message := formatUserInput st.inputValue
  if message = [] ∨ st.isTyping = true then (st, none)
  else
    let call := APIService.sendMessage message st.userId st.currentLanguage
      (str "web") f
    let st1 := ChatInterface.addMessage st message (str "user")
    let st2 := { st1 with inputValue := [] }
    let st3 := ChatInterface.showTyping st2 true
    match call.2 with
    | .ok resp =>
      let st4 := ChatInterface.showTyping st3 false
      let cls := if resp.is_crisis then str "crisis" else str "bot"
      let st5 := ChatInterface.addMessage st4 resp.response cls
      let st6 :=
        match resp.resources with
        | some rs =>
          if resp.is_crisis then ChatInterface.showCrisisAlert st5 rs else st5
        | none => st5
      (ChatInterface.updateStats st6 fs, some call.1)
    | .error _ =>
      let st4 := ChatInterface.showTyping st3 false
      (ChatInterface.addMessage st4
        (MessageFormatter.translate (str "errorMessage") st4.currentLanguage)
        (str "bot"), some call.1)

/-- C6: `updateStats` writes `stats.active_users`, `stats.total_conversations`
and `stats.resources_available` into the three stat nodes, substituting 0 for
a missing or falsy field, and touches no other widget state. -/
theorem updateStats_dom_spec :
    ∀ (st : ChatState) (f : FetchOutcome StatsJson),
      ((APIService.getStats f).active_users = none →
        (ChatInterface.updateStats st f).statActiveUsers = 0)
      ∧ (∀ n, (APIService.getStats f).active_users = some n →
          (ChatInterface.updateStats st f).statActiveUsers = n)
      ∧ ((APIService.getStats f).total_conversations = none →
          (ChatInterface.updateStats st f).statTotalConversations = 0)
      ∧ (∀ n, (APIService.getStats f).total_conversations = some n →
          (ChatInterface.updateStats st f).statTotalConversations = n)
      ∧ ((APIService.getStats f).resources_available = none →
          (ChatInterface.updateStats st f).statResourcesAvailable = 0)
      ∧ (∀ n, (APIService.getStats f).resources_available = some n →
          (ChatInterface.updateStats st f).statResourcesAvailable = n)
      ∧ (ChatInterface.updateStats st f).inputValue = st.inputValue
      ∧ (ChatInterface.updateStats st f).isTyping = st.isTyping
      ∧ (ChatInterface.updateStats st f).currentLanguage = st.currentLanguage
      ∧ (ChatInterface.updateStats st f).userId = st.userId
      ∧ (ChatInterface.updateStats st f).messages = st.messages
      ∧ (ChatInterface.updateStats st f).messageHistory = st.messageHistory
      ∧ (ChatInterface.updateStats st f).crisisAlertShown = st.crisisAlertShown
      ∧ (ChatInterface.updateStats st f).crisisResourcesHtml = st.crisisResourcesHtml
      ∧ (ChatInterface.updateStats st f).typingIndicatorShown = st.typingIndicatorShown
      ∧ (ChatInterface.updateStats st f).sendButtonDisabled = st.sendButtonDisabled := by
  intro st f
  refine ⟨?_, ?_, ?_, ?_, ?_, ?_, rfl, rfl, rfl, rfl, rfl, rfl, rfl, rfl, rfl, rfl⟩
  all_goals
    first
      | (intro h; simp [ChatInterface.updateStats, h])
      | (intro n h; simp [ChatInterface.updateStats, h])

/-- Instantiation of `updateStats_dom_spec`: a present field and a missing
field at a concrete stats response, hypotheses discharged by evaluation. -/
theorem updateStats_dom_spec_witness :
    (APIService.getStats (FetchOutcome.response true 200
        ⟨some 7, none, some 0⟩)).active_users = some 7
    ∧ (ChatInterface.updateStats
        ⟨[], false, str "en", str "u", [], [], false, [], false, false, 0, 0, 0⟩
        (FetchOutcome.response true 200 ⟨some 7, none, some 0⟩)).statActiveUsers = 7
    ∧ (ChatInterface.updateStats
        ⟨[], false, str "en", str "u", [], [], false, [], false, false, 0, 0, 0⟩
        (FetchOutcome.response true 200 ⟨some 7, none, some 0⟩)).statTotalConversations = 0 :=
  ⟨rfl,
   (updateStats_dom_spec
      ⟨[], false, str "en", str "u", [], [], false, [], false, false, 0, 0, 0⟩
      (FetchOutcome.response true 200 ⟨some 7, none, some 0⟩)).2.1 7 rfl,
   (updateStats_dom_spec
      ⟨[], false, str "en", str "u", [], [], false, [], false, false, 0, 0, 0⟩
      (FetchOutcome.response true 200 ⟨some 7, none, some 0⟩)).2.2.1 rfl⟩

/-- C7: `sendMessage` forwards exactly `formatUserInput` of the input box as
the user text; when that is empty or a reply is pending, it returns with the
whole chat state unchanged and no request issued. -/
theorem sendMessage_guard_spec :
    ∀ (st : ChatState) (f : FetchOutcome ChatResponse) (fs : FetchOutcome StatsJson),
      ((formatUserInput st.inputValue = [] ∨ st.isTyping = true) →
        ChatInterface.sendMessage st f fs = (st, none))
      ∧ (formatUserInput st.inputValue ≠ [] → st.isTyping = false →
          ∃ req, (ChatInterface.sendMessage st f fs).2 = some req
            ∧ req.body = ⟨st.userId, formatUserInput st.inputValue,
                st.currentLanguage, str "web"⟩
            ∧ req.url = APIService.baseURL ++ str "/api/v1/chat"
            ∧ req.method = str "POST") := by
  intro st f fs
  constructor
  · intro h
    simp only [ChatInterface.sendMessage]
    rw [if_pos h]
  · intro h1 h2
    have hg : ¬(formatUserInput st.inputValue = [] ∨ st.isTyping = true) := by
      simp [h1, h2]
    simp only [ChatInterface.sendMessage]
    rw [if_neg hg]
    cases f with
    | reject msg => exact ⟨_, rfl, rfl, rfl, rfl⟩
    | response ok status body =>
      cases ok
      · exact ⟨_, rfl, rfl, rfl, rfl⟩
      · exact ⟨_, rfl, rfl, rfl, rfl⟩

/-- A concrete chat state whose input collapses to the empty message. -/
def blankInputState : ChatState :=
  ⟨str "   ", false, str "en", str "user_1", [], [], false, [], false, false, 0, 0, 0⟩

/-- Instantiation of `sendMessage_guard_spec`: a whitespace-only input leaves
the state unchanged, the guard hypothesis discharged by evaluation. -/
theorem sendMessage_guard_spec_witness :
    (formatUserInput blankInputState.inputValue = [] ∨ blankInputState.isTyping = true)
    ∧ ChatInterface.sendMessage blankInputState
        (FetchOutcome.reject (str "down")) (FetchOutcome.reject (str "down")) =
      (blankInputState, none) :=
  ⟨Or.inl (by decide),
   (sendMessage_guard_spec blankInputState
      (FetchOutcome.reject (str "down")) (FetchOutcome.reject (str "down"))).1
     (Or.inl (by decide))⟩

/-- C4: on a successful chat response, `sendMessage` appends exactly one
reply (after the user message) with content `response.response` to both the
messages node and the history, with class `crisis` when `is_crisis` is truthy
and `bot` otherwise; on a failed request it appends one `bot` message with
the translated `errorMessage`; in both cases the typing indicator ends
hidden. -/
theorem sendMessage_reply_rendering :
    ∀ (st : ChatState) (resp : ChatResponse) (status : Nat)
      (fs : FetchOutcome StatsJson),
      formatUserInput st.inputValue ≠ [] → st.isTyping = false →
      (((ChatInterface.sendMessage st (FetchOutcome.response true status resp) fs).1.messages =
          st.messages
            ++ [⟨str "message user", formatMessage (formatUserInput st.inputValue) true⟩,
                ⟨str "message " ++ (if resp.is_crisis then str "crisis" else str "bot"),
                  formatMessage resp.response true⟩]
        ∧ (ChatInterface.sendMessage st (FetchOutcome.response true status resp) fs).1.messageHistory =
            st.messageHistory
              ++ [⟨str "user", formatUserInput st.inputValue⟩,
                  ⟨(if resp.is_crisis then str "crisis" else str "bot"), resp.response⟩]
        ∧ (ChatInterface.sendMessage st (FetchOutcome.response true status resp) fs).1.isTyping = false
        ∧ (ChatInterface.sendMessage st (FetchOutcome.response true status resp) fs).1.typingIndicatorShown = false)
      ∧ ∀ msg : List Char,
          ((ChatInterface.sendMessage st (FetchOutcome.reject msg) fs).1.messages =
            st.messages
              ++ [⟨str "message user", formatMessage (formatUserInput st.inputValue) true⟩,
                  ⟨str "message bot",
                    formatMessage
                      (MessageFormatter.translate (str "errorMessage") st.currentLanguage)
                      true⟩]
          ∧ (ChatInterface.sendMessage st (FetchOutcome.reject msg) fs).1.messageHistory =
              st.messageHistory
                ++ [⟨str "user", formatUserInput st.inputValue⟩,
                    ⟨str "bot",
                      MessageFormatter.translate (str "errorMessage") st.currentLanguage⟩]
          ∧ (ChatInterface.sendMessage st (FetchOutcome.reject msg) fs).1.isTyping = false
          ∧ (ChatInterface.sendMessage st (FetchOutcome.reject msg) fs).1.typingIndicatorShown = false)) := by
  intro st resp status fs h1 h2
  have hg : ¬(formatUserInput st.inputValue = [] ∨ st.isTyping = true) := by
    simp [h1, h2]
  constructor
  · simp only [ChatInterface.sendMessage, if_neg hg, APIService.sendMessage]
    cases hres : resp.resources with
    | none =>
      cases hcr : resp.is_crisis <;>
        simp [ChatInterface.addMessage, ChatInterface.showTyping,
          ChatInterface.updateStats, ChatInterface.showCrisisAlert, hcr, hres, str]
    | some rs =>
      cases hcr : resp.is_crisis <;>
        simp [ChatInterface.addMessage, ChatInterface.showTyping,
          ChatInterface.updateStats, ChatInterface.showCrisisAlert, hcr, hres, str]
  · intro msg
    simp only [ChatInterface.sendMessage, if_neg hg, APIService.sendMessage]
    simp [ChatInterface.addMessage, ChatInterface.showTyping,
      ChatInterface.updateStats, str]

/-- A concrete chat state: the input holds `suicide`, no reply pending. -/
def testChatState : ChatState :=
  ⟨str "suicide", false, str "en", str "user_1", [], [], false, [], false,
    false, 0, 0, 0⟩

/-- Instantiation of `sendMessage_reply_rendering`: the typing indicator is
hidden after a concrete successful exchange, hypotheses discharged by
evaluation. -/
theorem sendMessage_reply_rendering_witness :
    formatUserInput testChatState.inputValue ≠ []
    ∧ (ChatInterface.sendMessage testChatState
        (FetchOutcome.response true 200 ⟨str "I hear you", false, none⟩)
        (FetchOutcome.response true 200 ⟨some 1, some 1, some 1⟩)).1.isTyping = false :=
  ⟨by decide,
   ((sendMessage_reply_rendering testChatState ⟨str "I hear you", false, none⟩ 200
      (FetchOutcome.response true 200 ⟨some 1, some 1, some 1⟩)
      (by decide) rfl).1).2.2.1⟩

/-- C2 is refuted: the crisis alert is not driven by the client-side keyword
detection. Sending `suicide` (which `detectCrisisIndicators` flags) while the
backend replies with `is_crisis: false` leaves the crisis alert hidden:
`ChatInterface.sendMessage` never consults `detectCrisisIndicators`. -/
theorem sendMessage_crisis_alert_counterexample :
    detectCrisisIndicators (formatUserInput testChatState.inputValue) = true
    ∧ (ChatInterface.sendMessage testChatState
        (FetchOutcome.response true 200 ⟨str "ok", false, none⟩)
        (FetchOutcome.response true 200 ⟨some 1, some 1, some 1⟩)).1.crisisAlertShown
      = false := by
  constructor
  · decide
  · rfl

/-- C2 (amended): the crisis alert with emergency resources is driven by the
backend response, not by client-side keyword detection: after a sent message,
an ok response makes the alert shown exactly when it was already shown or the
response carries a truthy `is_crisis` together with a resources field, and a
failed request leaves the alert untouched. -/
theorem sendMessage_crisis_alert_server_driven :
    ∀ (st : ChatState) (fs : FetchOutcome StatsJson),
      formatUserInput st.inputValue ≠ [] → st.isTyping = false →
      (∀ (resp : ChatResponse) (status : Nat),
          (ChatInterface.sendMessage st
              (FetchOutcome.response true status resp) fs).1.crisisAlertShown =
            (st.crisisAlertShown || (resp.is_crisis && resp.resources.isSome)))
      ∧ (∀ msg : List Char,
          (ChatInterface.sendMessage st
              (FetchOutcome.reject msg) fs).1.crisisAlertShown =
            st.crisisAlertShown) := by
  intro st fs h1 h2
  have hg : ¬(formatUserInput st.inputValue = [] ∨ st.isTyping = true) := by
    simp [h1, h2]
  constructor
  · intro resp status
    simp only [ChatInterface.sendMessage, if_neg hg, APIService.sendMessage]
    cases hres : resp.resources with
    | none =>
      cases hcr : resp.is_crisis <;>
        simp [ChatInterface.addMessage, ChatInterface.showTyping,
          ChatInterface.updateStats, ChatInterface.showCrisisAlert, hcr, hres]
    | some rs =>
      cases hcr : resp.is_crisis <;>
        simp [ChatInterface.addMessage, ChatInterface.showTyping,
          ChatInterface.updateStats, ChatInterface.showCrisisAlert, hcr, hres]
  · intro msg
    simp only [ChatInterface.sendMessage, if_neg hg, APIService.sendMessage]
    simp [ChatInterface.addMessage, ChatInterface.showTyping]

/-- Instantiation of `sendMessage_crisis_alert_server_driven`: a crisis
response with resources shows the alert, hypotheses discharged by
evaluation. -/
theorem sendMessage_crisis_alert_server_driven_witness :
    formatUserInput testChatState.inputValue ≠ []
    ∧ (ChatInterface.sendMessage testChatState
        (FetchOutcome.response true 200 ⟨str "help", true, some [str "Call 1199"]⟩)
        (FetchOutcome.response true 200 ⟨some 1, some 1, some 1⟩)).1.crisisAlertShown
      = (testChatState.crisisAlertShown || (true && true)) :=
  ⟨by decide,
   (sendMessage_crisis_alert_server_driven testChatState
      (FetchOutcome.response true 200 ⟨some 1, some 1, some 1⟩)
      (by decide) rfl).1 ⟨str "help", true, some [str "Call 1199"]⟩ 200⟩
